import Mathlib

/-!
# Verification of the SideFX Labs VAT player core

Shallow embedding, in Lean 4, of the numeric core of `src/sidefx-player.ts`:
the vertex-shader decode model (frame selection, texel dequantization),
the thin-instancing grid layout built by `applyInstancing`, the render-loop
playback clock, the `applyVat` validation / material-construction step, and
the Unity-material metadata parser (`parseUnityMaterial` / `extractFloat`).

Numbers are modelled as rationals.  A JavaScript number that may be NaN
(or, more generally, non-finite) is modelled as `Option ℚ`, with `none`
standing for the non-finite case; JavaScript division is total on floats
but produces NaN/Infinity for a zero divisor, which the model maps to
`none`.
-/

/-- A JavaScript `number` value: `some q` is the finite value `q`,
`none` models NaN (and other non-finite results). -/
abbrev JsNum := Option ℚ

/-- JavaScript division as used in the player: a zero divisor yields a
non-finite value (`NaN` when the numerator is also zero), modelled `none`. -/
def jsDiv (a b : ℚ) : JsNum :=
  if b = 0 then none else some (a / b)

/-- The `Number(input.value) || d` idiom from the source: a parse result of
`NaN` (`none`) or `0` falls back to the default `d`; every other value,
including negative ones, is kept. -/
def numberOr (d : ℚ) (v : JsNum) : ℚ :=
  match v with
  | none => d
  | some q => if q = 0 then d else q

-- ─────────────────────────────────────────────────────────────────────────
-- Decode model (VAT_VERTEX_SHADER, src/sidefx-player.ts lines 76–147)
-- ─────────────────────────────────────────────────────────────────────────

/-- GLSL `mod(x, y) = x - y * floor(x / y)`, the wrapping (non-negative for
positive `y`) modulo used by the shader. -/
def glslMod (x y : ℚ) : ℚ :=
  x - y * ⌊x / y⌋

/-- Shader line 92: `float frame = floor(mod(effectiveTime * fps, numFrames));`.
The result is the (floored) frame index as a shader float. -/
def vatFrame (effectiveTime fps numFrames : ℚ) : ℚ :=
  ⌊glslMod (effectiveTime * fps) numFrames⌋

/-- A shader `vec3` with rational components. -/
structure Vec3 where
  x : ℚ
  y : ℚ
  z : ℚ
deriving DecidableEq, Repr

/-- Componentwise order on `Vec3`. -/
def vecLE (a b : Vec3) : Prop :=
  a.x ≤ b.x ∧ a.y ≤ b.y ∧ a.z ≤ b.z

instance (a b : Vec3) : Decidable (vecLE a b) := by
  unfold vecLE; infer_instance

/-- Shader lines 110–118: dequantization of the raw position sample.
Packed: `texPos = posMin + (posMax - posMin) * posSample.xyz`;
unpacked (HDR): the raw sample is the position. -/
def decodeTexPos (isPacked : Bool) (posMin posMax raw : Vec3) : Vec3 :=
  if isPacked then
    ⟨posMin.x + (posMax.x - posMin.x) * raw.x,
     posMin.y + (posMax.y - posMin.y) * raw.y,
     posMin.z + (posMax.z - posMin.z) * raw.z⟩
  else
    raw

-- ─────────────────────────────────────────────────────────────────────────
-- Playback clock (engine.runRenderLoop, src/sidefx-player.ts lines 274–286)
-- ─────────────────────────────────────────────────────────────────────────

/-- One render-loop tick of the playback clock.  While playing, the time
accumulator advances by `(deltaMs / 1000) * speed` where
`speed = Number(speedInput.value) || 1` (`speedParsed` is the `Number(...)`
result; `none` models NaN from non-numeric text). -/
def renderTick (isPlaying : Bool) (speedParsed : JsNum) (deltaMs t : ℚ) : ℚ :=
  if isPlaying then t + deltaMs / 1000 * numberOr 1 speedParsed else t

-- ─────────────────────────────────────────────────────────────────────────
-- Instance layout builder (applyInstancing, src/sidefx-player.ts 896–933)
-- ─────────────────────────────────────────────────────────────────────────

/-- `Math.ceil(Math.sqrt(count))` for a natural instance count (the count is
clamped to `[1, 10000]` before this point, so integral inputs suffice). -/
def gridSize (n : ℕ) : ℕ :=
  if n = 0 then 0 else Nat.sqrt (n - 1) + 1

/-- Babylon `Matrix.Translation(x, y, z)`: a row-major 4×4 matrix that is the
identity except for the translation components in row 3. -/
def translationMatrix (x y z : ℚ) : Fin 4 → Fin 4 → ℚ := fun i j =>
  if i.val = 3 then
    if j.val = 0 then x else if j.val = 1 then y else if j.val = 2 then z else 1
  else if i.val = j.val then 1 else 0

lemma translationMatrix_x (x y z : ℚ) : translationMatrix x y z 3 0 = x := rfl

lemma translationMatrix_y (x y z : ℚ) : translationMatrix x y z 3 1 = y := rfl

lemma translationMatrix_z (x y z : ℚ) : translationMatrix x y z 3 2 = z := rfl

/-- One thin-instance record: its world transform (16 floats written to the
`matrix` buffer) and its `instanceTimeOffset` buffer entry. -/
structure InstanceRecord where
  transform : Fin 4 → Fin 4 → ℚ
  timeOffset : JsNum

/-- The body of the `applyInstancing` loop for index `i` with grid size `g`:
`row = floor(i / gridSize)`, `col = i % gridSize`,
`x = col * spacing - gridOffset`, `z = row * spacing - gridOffset` with
`gridOffset = (gridSize - 1) * spacing / 2`, a translation-only matrix, and
`timeOffsets[i] = ((row + col) / (gridSize * 2 - 2)) * animDuration`
(the division is a JS float division: a zero divisor yields NaN here,
because the numerator is then also zero). -/
def instanceAt (g : ℕ) (spacing d : ℚ) (i : ℕ) : InstanceRecord :=
  { transform := translationMatrix
      (((i % g : ℕ) : ℚ) * spacing - ((g : ℚ) - 1) * spacing / 2) 0
      (((i / g : ℕ) : ℚ) * spacing - ((g : ℚ) - 1) * spacing / 2),
    timeOffset := (jsDiv (((i / g : ℕ) : ℚ) + ((i % g : ℕ) : ℚ))
      ((g : ℚ) * 2 - 2)).map (fun q => q * d) }

/-- The full instance layout: the `applyInstancing` loop over
`i = 0, …, count - 1`, with `d = animDuration = numFrames / fps`. -/
def buildInstances (count : ℕ) (spacing d : ℚ) : List InstanceRecord :=
  (List.range count).map (instanceAt (gridSize count) spacing d)

lemma le_gridSize_sq (n : ℕ) (hn : 1 ≤ n) : n ≤ gridSize n * gridSize n := by
  unfold gridSize
  rw [if_neg (by omega)]
  have h : n - 1 < (Nat.sqrt (n - 1) + 1) * (Nat.sqrt (n - 1) + 1) := by
    simpa [Nat.succ_eq_add_one] using Nat.lt_succ_sqrt (n - 1)
  set m := (Nat.sqrt (n - 1) + 1) * (Nat.sqrt (n - 1) + 1) with hm
  omega

lemma two_le_gridSize (n : ℕ) (hn : 2 ≤ n) : 2 ≤ gridSize n := by
  unfold gridSize
  rw [if_neg (by omega)]
  have h1 : 1 ≤ n - 1 := by omega
  have h2 : Nat.sqrt 1 ≤ Nat.sqrt (n - 1) := Nat.sqrt_le_sqrt h1
  have h3 : Nat.sqrt 1 = 1 := by decide
  omega

-- ─────────────────────────────────────────────────────────────────────────
-- applyVat (src/sidefx-player.ts lines 548–724)
-- ─────────────────────────────────────────────────────────────────────────

/-- The decode-relevant uniforms `applyVat` writes onto the freshly created
`ShaderMaterial` (lines 645–655).  `posMin`/`posMax` components are raw
`Number(...)` results and may be NaN. -/
structure VatUniforms where
  vatTime : ℚ
  numFrames : ℚ
  fps : ℚ
  posMin : JsNum × JsNum × JsNum
  posMax : JsNum × JsNum × JsNum
  isPacked : Bool
  flipV : Bool
  useOffset : Bool
  debugMode : JsNum
deriving DecidableEq

/-- The status messages `applyVat` can report (`setStatus` calls). -/
inductive VatStatus where
  | loadPositionTextureFirst
  | selectMeshFirst
  | missingUV2
  | applied
deriving DecidableEq

/-- The module-level playback state touched by `applyVat`: the time
accumulator, play flag, current VAT mesh, the created material, the material
assigned to the selected mesh (`none` = its original material), and the last
status message. -/
structure PlayerState where
  vatTime : ℚ
  isPlaying : Bool
  currentVatMesh : Option ℕ
  vatMaterial : Option VatUniforms
  meshMaterial : Option VatUniforms
  status : VatStatus
deriving DecidableEq

/-- The inputs `applyVat` reads from the page and scene: whether a position
texture is loaded, whether the selected mesh exists and carries UV2, and the
`Number(...)` parses of the numeric fields plus the checkbox flags. -/
structure ApplyVatInputs where
  hasPositionTexture : Bool
  meshFound : Bool
  selectedMeshId : ℕ
  meshHasUV2 : Bool
  numFramesValue : JsNum
  fpsValue : JsNum
  posMinV : JsNum × JsNum × JsNum
  posMaxV : JsNum × JsNum × JsNum
  isPacked : Bool
  flipVChecked : Bool
  useOffsetChecked : Bool
  debugModeValue : JsNum

/-- `applyVat`: three guarded early returns (no position texture, no mesh,
no UV2 channel), each only setting a status message; then material
construction with `numFrames = Number(numFramesInput.value) || 24`,
`fps = Number(fpsInput.value) || 24`, raw bounds, and the mode flags; then
`mesh.material = vatMaterial; vatTime = 0; isPlaying = false;
currentVatMesh = mesh`. -/
def applyVat (inp : ApplyVatInputs) (s : PlayerState) : PlayerState :=
  if !inp.hasPositionTexture then
    { s with status := VatStatus.loadPositionTextureFirst }
  else if !inp.meshFound then
    { s with status := VatStatus.selectMeshFirst }
  else if !inp.meshHasUV2 then
    { s with status := VatStatus.missingUV2 }
  else
    let u : VatUniforms :=
      { vatTime := 0
        numFrames := numberOr 24 inp.numFramesValue
        fps := numberOr 24 inp.fpsValue
        posMin := inp.posMinV
        posMax := inp.posMaxV
        isPacked := inp.isPacked
        flipV := inp.flipVChecked
        useOffset := inp.useOffsetChecked
        debugMode := inp.debugModeValue }
    { vatTime := 0
      isPlaying := false
      currentVatMesh := some inp.selectedMeshId
      vatMaterial := some u
      meshMaterial := some u
      status := VatStatus.applied }

-- ─────────────────────────────────────────────────────────────────────────
-- Theorems: C1, C2, C10
-- ─────────────────────────────────────────────────────────────────────────

/-- C1: for every `time ≥ 0`, `fps > 0`, `numFrames > 0`, the shader's frame
selection `frame = floor(mod(time * fps, numFrames))` (a wrapping,
non-negative modulo) satisfies `0 ≤ frame < numFrames`; and when
`time * fps` is an exact (integer) multiple of `numFrames` the selected
frame is `0`, not `numFrames`. -/
theorem vatFrame_bounds (time fps numFrames : ℚ)
    (ht : 0 ≤ time) (hf : 0 < fps) (hn : 0 < numFrames) :
    (0 ≤ vatFrame time fps numFrames ∧ vatFrame time fps numFrames < numFrames) ∧
    (∀ k : ℤ, time * fps = k * numFrames → vatFrame time fps numFrames = 0) := by
  have hmod_nonneg : 0 ≤ glslMod (time * fps) numFrames := by
    have h := Int.fract_nonneg (time * fps / numFrames)
    have : glslMod (time * fps) numFrames
        = numFrames * Int.fract (time * fps / numFrames) := by
      unfold glslMod Int.fract
      field_simp
    rw [this]
    positivity
  have hmod_lt : glslMod (time * fps) numFrames < numFrames := by
    have h := Int.fract_lt_one (time * fps / numFrames)
    have heq : glslMod (time * fps) numFrames
        = numFrames * Int.fract (time * fps / numFrames) := by
      unfold glslMod Int.fract
      field_simp
    rw [heq]
    calc numFrames * Int.fract (time * fps / numFrames)
        < numFrames * 1 := by
          exact mul_lt_mul_of_pos_left h hn
      _ = numFrames := mul_one numFrames
  refine ⟨⟨?_, ?_⟩, ?_⟩
  · unfold vatFrame
    exact_mod_cast Int.floor_nonneg.mpr hmod_nonneg
  · unfold vatFrame
    calc ((⌊glslMod (time * fps) numFrames⌋ : ℚ))
        ≤ glslMod (time * fps) numFrames := Int.floor_le _
      _ < numFrames := hmod_lt
  · intro k hk
    unfold vatFrame glslMod
    rw [hk]
    have hne : numFrames ≠ 0 := ne_of_gt hn
    have h1 : (k : ℚ) * numFrames / numFrames = (k : ℚ) := by
      field_simp
    rw [h1, Int.floor_intCast]
    have h2 : (k : ℚ) * numFrames - numFrames * (k : ℚ) = 0 := by ring
    rw [h2]
    simp

/-- Witness for `vatFrame_bounds` at `time = 3/2`, `fps = 2`, `numFrames = 4`
(frame stays in range) and at the exact multiple `time * fps = 2 * 4`. -/
theorem vatFrame_bounds_witness :
    (0 ≤ (3/2 : ℚ) ∧ 0 < (2 : ℚ) ∧ 0 < (4 : ℚ)) ∧
    (0 ≤ vatFrame (3/2) 2 4 ∧ vatFrame (3/2) 2 4 < 4) ∧
    vatFrame 4 2 4 = 0 := by
  refine ⟨by norm_num, (vatFrame_bounds (3/2) 2 4 (by norm_num) (by norm_num)
    (by norm_num)).1, ?_⟩
  exact (vatFrame_bounds 4 2 4 (by norm_num) (by norm_num) (by norm_num)).2
    2 (by norm_num)

/-- C2: for a raw sample in `[0,1]³` and bounds with `posMax ≥ posMin`
componentwise, the packed-mode dequantization
`posMin + (posMax - posMin) * rawSample` lies in `[posMin, posMax]`
componentwise; `rawSample = 0` maps to `posMin`, `rawSample = 1` maps to
`posMax`; and in unpacked mode the raw sample is returned unchanged. -/
theorem decodeTexPos_bounds (posMin posMax raw : Vec3)
    (h0 : vecLE ⟨0, 0, 0⟩ raw) (h1 : vecLE raw ⟨1, 1, 1⟩)
    (hb : vecLE posMin posMax) :
    (vecLE posMin (decodeTexPos true posMin posMax raw) ∧
     vecLE (decodeTexPos true posMin posMax raw) posMax) ∧
    decodeTexPos true posMin posMax ⟨0, 0, 0⟩ = posMin ∧
    decodeTexPos true posMin posMax ⟨1, 1, 1⟩ = posMax ∧
    decodeTexPos false posMin posMax raw = raw := by
  obtain ⟨h0x, h0y, h0z⟩ := h0
  obtain ⟨h1x, h1y, h1z⟩ := h1
  obtain ⟨hbx, hby, hbz⟩ := hb
  refine ⟨⟨⟨?_, ?_, ?_⟩, ⟨?_, ?_, ?_⟩⟩, ?_, ?_, ?_⟩
  · simp only [decodeTexPos, if_true]
    nlinarith [mul_nonneg (sub_nonneg.mpr hbx) h0x]
  · simp only [decodeTexPos, if_true]
    nlinarith [mul_nonneg (sub_nonneg.mpr hby) h0y]
  · simp only [decodeTexPos, if_true]
    nlinarith [mul_nonneg (sub_nonneg.mpr hbz) h0z]
  · simp only [decodeTexPos, if_true]
    nlinarith [mul_le_of_le_one_right (sub_nonneg.mpr hbx) h1x]
  · simp only [decodeTexPos, if_true]
    nlinarith [mul_le_of_le_one_right (sub_nonneg.mpr hby) h1y]
  · simp only [decodeTexPos, if_true]
    nlinarith [mul_le_of_le_one_right (sub_nonneg.mpr hbz) h1z]
  · simp only [decodeTexPos, if_true]
    cases posMin
    simp only [Vec3.mk.injEq]
    refine ⟨by ring, by ring, by ring⟩
  · simp only [decodeTexPos, if_true]
    cases posMax
    simp only [Vec3.mk.injEq]
    refine ⟨by ring, by ring, by ring⟩
  · rfl

/-- Witness for `decodeTexPos_bounds` at `posMin = (0,-1,2)`,
`posMax = (1,3,2)`, `raw = (1/2, 0, 1)`. -/
theorem decodeTexPos_bounds_witness :
    (vecLE ⟨0, 0, 0⟩ ⟨1/2, 0, 1⟩ ∧ vecLE ⟨1/2, 0, 1⟩ ⟨1, 1, 1⟩ ∧
     vecLE ⟨0, -1, 2⟩ ⟨1, 3, 2⟩) ∧
    (vecLE ⟨0, -1, 2⟩ (decodeTexPos true ⟨0, -1, 2⟩ ⟨1, 3, 2⟩ ⟨1/2, 0, 1⟩) ∧
     vecLE (decodeTexPos true ⟨0, -1, 2⟩ ⟨1, 3, 2⟩ ⟨1/2, 0, 1⟩) ⟨1, 3, 2⟩) := by
  refine ⟨⟨by norm_num [vecLE], by norm_num [vecLE], by norm_num [vecLE]⟩, ?_⟩
  exact (decodeTexPos_bounds ⟨0, -1, 2⟩ ⟨1, 3, 2⟩ ⟨1/2, 0, 1⟩
    (by norm_num [vecLE]) (by norm_num [vecLE]) (by norm_num [vecLE])).1

/-- C10: on a render tick while playing, a speed input that parses to `0` or
to NaN (`none`) is replaced by `1` via `Number(...) || 1`, so the clock
advances by the full wall-clock delta: time strictly increases for a
positive delta, and a speed of exactly `0` cannot halt time. -/
theorem renderTick_speed_fallback (speedParsed : JsNum) (deltaMs t : ℚ)
    (h : speedParsed = some 0 ∨ speedParsed = none) :
    renderTick true speedParsed deltaMs t = t + deltaMs / 1000 * 1 ∧
    (0 < deltaMs → t < renderTick true speedParsed deltaMs t) := by
  have hspeed : numberOr 1 speedParsed = 1 := by
    rcases h with h | h <;> simp [h, numberOr]
  constructor
  · simp [renderTick, hspeed]
  · intro hd
    simp only [renderTick, if_true, hspeed, mul_one]
    have : 0 < deltaMs / 1000 := by positivity
    linarith

/-- Witness for `renderTick_speed_fallback`: speed text parsing to `0`,
a 16 ms delta, starting time `5`. -/
theorem renderTick_speed_fallback_witness :
    (some (0 : ℚ) = some 0 ∨ (some (0 : ℚ) : JsNum) = none) ∧
    renderTick true (some 0) 16 5 = 5 + 16 / 1000 * 1 ∧
    (5 : ℚ) < renderTick true (some 0) 16 5 := by
  have h := renderTick_speed_fallback (some 0) 16 5 (Or.inl rfl)
  exact ⟨Or.inl rfl, h.1, h.2 (by norm_num)⟩

-- ─────────────────────────────────────────────────────────────────────────
-- Theorems: C3, C4, C5
-- ─────────────────────────────────────────────────────────────────────────

/-- C3 (code evaluated at the failing input): for every spacing and
animation duration, building the layout with `count = 1` yields exactly one
instance, placed at the origin — but its time offset is
`((0 + 0) / (1 * 2 - 2)) * animDuration = (0 / 0) * animDuration`, i.e. NaN
(`none`): the source has no `gridSize == 1` guard, contradicting the
documented intent that a single instance gets offset `0`. -/
theorem buildInstances_single_nan (spacing d : ℚ) :
    buildInstances 1 spacing d = [⟨translationMatrix 0 0 0, none⟩] := by
  have hg : gridSize 1 = 1 := by unfold gridSize; norm_num
  have hr : List.range 1 = [0] := rfl
  unfold buildInstances
  rw [hg, hr]
  simp only [List.map_cons, List.map_nil, List.cons.injEq, and_true]
  unfold instanceAt
  simp only [InstanceRecord.mk.injEq]
  constructor
  · norm_num
  · norm_num [jsDiv]

/-- C4 counterexample: with `count = 100`, `spacing = 3` and
`animDuration = 1`, the instance at `row = 9, col = 9` (index 99) has
`timeOffset = 1 = animDuration`, so `timeOffset < animDuration` fails. -/
theorem buildInstances_offset_eq_duration :
    ((buildInstances 100 3 1).map InstanceRecord.timeOffset)[99]? =
      some (some 1) ∧ ¬ ((1 : ℚ) < 1) := by
  constructor
  · have hg : gridSize 100 = 10 := by unfold gridSize; norm_num
    unfold buildInstances
    rw [hg, List.getElem?_map, List.getElem?_map,
      List.getElem?_range (by norm_num : 99 < 100)]
    simp only [Option.map_some', Option.some.injEq]
    unfold instanceAt
    dsimp only
    norm_num [jsDiv]
  · norm_num

/-- C4 as amended: every `InstanceRecord` produced by the instance layout
builder for a count of at least 2 has a translation-only transform and a
finite `timeOffset` satisfying `0 ≤ timeOffset ≤ animDuration` (for a
nonnegative `animDuration = numFrames / fps`); the upper bound is attained,
so `< animDuration` does not hold in general, and at `count = 1` the offset
is NaN rather than 0. -/
theorem buildInstances_record_bounds (count : ℕ) (spacing d : ℚ)
    (hc : 2 ≤ count) (hd : 0 ≤ d) :
    ∀ rec ∈ buildInstances count spacing d,
      (∃ x y z, rec.transform = translationMatrix x y z) ∧
      ∃ t, rec.timeOffset = some t ∧ 0 ≤ t ∧ t ≤ d := by
  intro rec hrec
  unfold buildInstances at hrec
  obtain ⟨i, hi, rfl⟩ := List.mem_map.mp hrec
  rw [List.mem_range] at hi
  have hg2 : 2 ≤ gridSize count := two_le_gridSize count hc
  have hcg : count ≤ gridSize count * gridSize count :=
    le_gridSize_sq count (by omega)
  have hgpos : 0 < gridSize count := by omega
  have hrow : i / gridSize count ≤ gridSize count - 1 := by
    have : i / gridSize count < gridSize count :=
      Nat.div_lt_of_lt_mul (by omega)
    omega
  have hcol : i % gridSize count ≤ gridSize count - 1 := by
    have := Nat.mod_lt i hgpos
    omega
  constructor
  · exact ⟨_, _, _, rfl⟩
  · have hgq : (2 : ℚ) ≤ (gridSize count : ℚ) := by exact_mod_cast hg2
    have hden : ((gridSize count : ℚ) * 2 - 2) ≠ 0 := by linarith
    have hdenpos : (0 : ℚ) < (gridSize count : ℚ) * 2 - 2 := by linarith
    refine ⟨(((i / gridSize count : ℕ) : ℚ) + ((i % gridSize count : ℕ) : ℚ)) /
      ((gridSize count : ℚ) * 2 - 2) * d, ?_, ?_, ?_⟩
    · simp [instanceAt, jsDiv, hden]
    · have hnum : (0 : ℚ) ≤
          ((i / gridSize count : ℕ) : ℚ) + ((i % gridSize count : ℕ) : ℚ) := by
        positivity
      exact mul_nonneg (div_nonneg hnum (le_of_lt hdenpos)) hd
    · have hsumN : i / gridSize count + i % gridSize count ≤
          2 * gridSize count - 2 := by omega
      have hsum : ((i / gridSize count : ℕ) : ℚ) + ((i % gridSize count : ℕ) : ℚ)
          ≤ (gridSize count : ℚ) * 2 - 2 := by
        have : ((i / gridSize count + i % gridSize count : ℕ) : ℚ) ≤
            ((2 * gridSize count - 2 : ℕ) : ℚ) := by exact_mod_cast hsumN
        push_cast [Nat.cast_sub (by omega : 2 ≤ 2 * gridSize count)] at this
        linarith
      have hratio : (((i / gridSize count : ℕ) : ℚ) +
          ((i % gridSize count : ℕ) : ℚ)) / ((gridSize count : ℚ) * 2 - 2) ≤ 1 :=
        (div_le_one hdenpos).mpr hsum
      calc (((i / gridSize count : ℕ) : ℚ) + ((i % gridSize count : ℕ) : ℚ)) /
            ((gridSize count : ℚ) * 2 - 2) * d
          ≤ 1 * d := mul_le_mul_of_nonneg_right hratio hd
        _ = d := one_mul d

/-- Witness for `buildInstances_record_bounds` at `count = 2`, `spacing = 1`,
`animDuration = 1`, applied to the first produced record. -/
theorem buildInstances_record_bounds_witness :
    (2 ≤ 2 ∧ (0 : ℚ) ≤ 1) ∧
    ((∃ x y z, (instanceAt (gridSize 2) 1 1 0).transform =
        translationMatrix x y z) ∧
     ∃ t, (instanceAt (gridSize 2) 1 1 0).timeOffset = some t ∧
       0 ≤ t ∧ t ≤ 1) := by
  refine ⟨⟨le_refl 2, by norm_num⟩, ?_⟩
  exact buildInstances_record_bounds 2 1 1 (le_refl 2) (by norm_num)
    (instanceAt (gridSize 2) 1 1 0)
    (List.mem_map_of_mem _ (by simp))

/-- C5: building the layout with `count = 100`, `spacing = 3` yields
`gridSize = 10` and 100 instances; instance `i` sits at
`x = (i mod 10) * 3 - 13.5`, `y = 0`, `z = (i / 10) * 3 - 13.5` (so x and z
step by 3 from −13.5 at column/row 0 to +13.5 at column/row 9, centred by
`centerOffset = (10 − 1) * 3 / 2 = 13.5`), and the corner instance 99
(row 9, col 9) has `timeOffset = (18 / 18) * animDuration = animDuration`. -/
theorem buildInstances_grid100 (d : ℚ) :
    gridSize 100 = 10 ∧
    (buildInstances 100 3 d).length = 100 ∧
    (∀ i : Fin 100,
      ((buildInstances 100 3 d).map (fun r => r.transform 3 0))[(i : ℕ)]? =
        some ((((i : ℕ) % 10 : ℕ) : ℚ) * 3 - 27/2) ∧
      ((buildInstances 100 3 d).map (fun r => r.transform 3 1))[(i : ℕ)]? =
        some 0 ∧
      ((buildInstances 100 3 d).map (fun r => r.transform 3 2))[(i : ℕ)]? =
        some ((((i : ℕ) / 10 : ℕ) : ℚ) * 3 - 27/2)) ∧
    ((10 : ℚ) - 1) * 3 / 2 = 27/2 ∧
    ((buildInstances 100 3 d).map InstanceRecord.timeOffset)[99]? =
      some (some d) := by
  have hg : gridSize 100 = 10 := by unfold gridSize; norm_num
  refine ⟨hg, ?_, ?_, by norm_num, ?_⟩
  · simp [buildInstances]
  · intro i
    have hi : (i : ℕ) < 100 := i.isLt
    refine ⟨?_, ?_, ?_⟩
    · unfold buildInstances
      rw [hg, List.getElem?_map, List.getElem?_map, List.getElem?_range hi]
      simp only [Option.map_some', Option.some.injEq]
      unfold instanceAt
      dsimp only
      rw [translationMatrix_x]
      norm_num
    · unfold buildInstances
      rw [hg, List.getElem?_map, List.getElem?_map, List.getElem?_range hi]
      simp only [Option.map_some', Option.some.injEq]
      unfold instanceAt
      dsimp only
      rw [translationMatrix_y]
    · unfold buildInstances
      rw [hg, List.getElem?_map, List.getElem?_map, List.getElem?_range hi]
      simp only [Option.map_some', Option.some.injEq]
      unfold instanceAt
      dsimp only
      rw [translationMatrix_z]
      norm_num
  · unfold buildInstances
    rw [hg, List.getElem?_map, List.getElem?_map,
      List.getElem?_range (by norm_num : 99 < 100)]
    simp only [Option.map_some', Option.some.injEq]
    unfold instanceAt
    dsimp only
    norm_num [jsDiv]

-- ─────────────────────────────────────────────────────────────────────────
-- Theorems: C7, C8
-- ─────────────────────────────────────────────────────────────────────────

/-- C8: requesting VAT activation on a mesh lacking the UV2 attribute fails
with the validation message and aborts with no partial state change: no
material is created or assigned, and the playback time, playing flag and
current-mesh state are unchanged. -/
theorem applyVat_missing_uv2 (inp : ApplyVatInputs) (s : PlayerState)
    (h1 : inp.hasPositionTexture = true) (h2 : inp.meshFound = true)
    (h3 : inp.meshHasUV2 = false) :
    (applyVat inp s).status = VatStatus.missingUV2 ∧
    (applyVat inp s).vatMaterial = s.vatMaterial ∧
    (applyVat inp s).meshMaterial = s.meshMaterial ∧
    (applyVat inp s).vatTime = s.vatTime ∧
    (applyVat inp s).isPlaying = s.isPlaying ∧
    (applyVat inp s).currentVatMesh = s.currentVatMesh := by
  refine ⟨?_, ?_, ?_, ?_, ?_, ?_⟩ <;> simp [applyVat, h1, h2, h3]

/-- A concrete `applyVat` input whose selected mesh lacks UV2. -/
def uv2LessInputs : ApplyVatInputs :=
  { hasPositionTexture := true, meshFound := true, selectedMeshId := 1,
    meshHasUV2 := false, numFramesValue := some 24, fpsValue := some 24,
    posMinV := (some 0, some 0, some 0), posMaxV := (some 1, some 1, some 1),
    isPacked := true, flipVChecked := false, useOffsetChecked := true,
    debugModeValue := some 0 }

/-- A concrete pre-existing player state with distinctive values. -/
def priorState : PlayerState :=
  { vatTime := 7, isPlaying := true, currentVatMesh := some 2,
    vatMaterial := none, meshMaterial := none, status := VatStatus.applied }

/-- Witness for `applyVat_missing_uv2` on `uv2LessInputs` / `priorState`. -/
theorem applyVat_missing_uv2_witness :
    (uv2LessInputs.hasPositionTexture = true ∧ uv2LessInputs.meshFound = true ∧
     uv2LessInputs.meshHasUV2 = false) ∧
    (applyVat uv2LessInputs priorState).status = VatStatus.missingUV2 ∧
    (applyVat uv2LessInputs priorState).vatTime = 7 := by
  have h := applyVat_missing_uv2 uv2LessInputs priorState rfl rfl rfl
  exact ⟨⟨rfl, rfl, rfl⟩, h.1, h.2.2.2.1.trans rfl⟩

/-- A concrete `applyVat` input whose numFrames field parses to `-5` and
which passes every validation check. -/
def negFramesInputs : ApplyVatInputs :=
  { hasPositionTexture := true, meshFound := true, selectedMeshId := 1,
    meshHasUV2 := true, numFramesValue := some (-5), fpsValue := some 24,
    posMinV := (some 0, some 0, some 0), posMaxV := (some 1, some 1, some 1),
    isPacked := true, flipVChecked := false, useOffsetChecked := true,
    debugModeValue := some 0 }

/-- C7 counterexample: a numFrames input parsing to `-5` (non-positive) is
NOT rejected: `Number(...) || 24` keeps every non-zero value, so the decode
material is constructed with `numFrames = -5` and the reported status is the
success message, not a validation failure. -/
theorem applyVat_negative_numFrames_reaches :
    ((applyVat negFramesInputs priorState).vatMaterial).map VatUniforms.numFrames
      = some (-5) ∧
    ¬ (0 < (-5 : ℚ)) ∧
    (applyVat negFramesInputs priorState).status = VatStatus.applied := by
  refine ⟨?_, by norm_num, ?_⟩ <;>
    norm_num [applyVat, negFramesInputs, numberOr]

/-- C7 as amended: when `applyVat`'s validation checks pass, the decode
material is always constructed with status the success message (never a
validation failure); its `numFrames` is `Number(input) || 24`, so a value
parsing to `0` or NaN is silently replaced by the default 24, while any
other value — including negative ones — is passed through unchanged. -/
theorem applyVat_numFrames_default (inp : ApplyVatInputs) (s : PlayerState)
    (h1 : inp.hasPositionTexture = true) (h2 : inp.meshFound = true)
    (h3 : inp.meshHasUV2 = true) :
    ∃ u : VatUniforms, (applyVat inp s).vatMaterial = some u ∧
      (applyVat inp s).status = VatStatus.applied ∧
      u.numFrames = numberOr 24 inp.numFramesValue ∧
      (inp.numFramesValue = some 0 → u.numFrames = 24) ∧
      (inp.numFramesValue = none → u.numFrames = 24) ∧
      ∀ q : ℚ, q ≠ 0 → inp.numFramesValue = some q → u.numFrames = q := by
  refine ⟨{ vatTime := 0, numFrames := numberOr 24 inp.numFramesValue,
            fps := numberOr 24 inp.fpsValue, posMin := inp.posMinV,
            posMax := inp.posMaxV, isPacked := inp.isPacked,
            flipV := inp.flipVChecked, useOffset := inp.useOffsetChecked,
            debugMode := inp.debugModeValue }, ?_, ?_, rfl, ?_, ?_, ?_⟩
  · simp [applyVat, h1, h2, h3]
  · simp [applyVat, h1, h2, h3]
  · intro h0; simp [h0, numberOr]
  · intro h0; simp [h0, numberOr]
  · intro q hq h0; simp [h0, numberOr, hq]

/-- A concrete `applyVat` input whose numFrames field parses to `0` and
which passes every validation check. -/
def zeroFramesInputs : ApplyVatInputs :=
  { negFramesInputs with numFramesValue := some 0 }

/-- Witness for `applyVat_numFrames_default`: a numFrames input parsing to
`0` yields a constructed material with the default `numFrames = 24`. -/
theorem applyVat_numFrames_default_witness :
    zeroFramesInputs.numFramesValue = some 0 ∧
    ∃ u : VatUniforms,
      (applyVat zeroFramesInputs priorState).vatMaterial = some u ∧
      u.numFrames = 24 := by
  obtain ⟨u, hu, _, _, h0, _, _⟩ :=
    applyVat_numFrames_default zeroFramesInputs priorState rfl rfl rfl
  exact ⟨rfl, u, hu, h0 rfl⟩

-- ─────────────────────────────────────────────────────────────────────────
-- Metadata parser (parseUnityMaterial / extractFloat, lines 757–791)
-- ─────────────────────────────────────────────────────────────────────────

/-- The JS regex class `\s` (ASCII range): space, tab, LF, VT, FF, CR. -/
def isJsSpace (c : Char) : Bool :=
  c == ' ' || c == '\t' || c == '\n' || c == '\r' ||
  c == '\x0B' || c == '\x0C'

/-- The capture class `[\d.\-e]` under the `i` flag (so `E` as well):
digits, decimal point, minus sign, exponent marker. -/
def isNumChar (c : Char) : Bool :=
  c.isDigit || c == '.' || c == '-' || c == 'e' || c == 'E'

/-- Case-insensitive character comparison (the regex `i` flag). -/
def ciChar (a b : Char) : Bool := a.toLower == b.toLower

/-- Pointwise case-insensitive equality of character lists. -/
def ciMatches : List Char → List Char → Bool
  | [], [] => true
  | x :: xs, y :: ys => ciChar x y && ciMatches xs ys
  | _, _ => false

/-- Does the pattern match case-insensitively at the head of `s`? -/
def ciPrefix : List Char → List Char → Bool
  | [], _ => true
  | _ :: _, [] => false
  | p :: ps, c :: cs => ciChar c p && ciPrefix ps cs

/-- After the field name has matched: the pattern requires a literal `:`,
then skips `\s*`, then captures a non-empty maximal `[\d.\-e]+` run. -/
def vatAfterName : List Char → Option (List Char)
  | ':' :: r3 =>
    if ((r3.dropWhile isJsSpace).takeWhile isNumChar).isEmpty then none
    else some ((r3.dropWhile isJsSpace).takeWhile isNumChar)
  | _ => none

/-- One attempt of the regex `-\s*<name>:\s*([\d.\-e]+)` anchored at the
start of `s`: a literal `-`, greedy whitespace, the case-insensitive field
name, a literal `:`, then `vatAfterName` (the greedy `\s*` runs need no
backtracking since the name starts with `_` and the class excludes
whitespace). -/
def vatMatchAt (name s : List Char) : Option (List Char) :=
  match s with
  | '-' :: rest =>
    if ciPrefix name (rest.dropWhile isJsSpace) then
      vatAfterName ((rest.dropWhile isJsSpace).drop name.length)
    else none
  | _ => none

/-- `text.match(regex)`: try the pattern at each position left to right and
return the first capture, or `none` when no position matches. -/
def vatFindCapture (name : List Char) : List Char → Option (List Char)
  | [] => none
  | c :: rest =>
    match vatMatchAt name (c :: rest) with
    | some cap => some cap
    | none => vatFindCapture name rest

/-- Read a maximal run of decimal digits: accumulated value, digit count,
remaining input. -/
def readDigits : ℕ → ℕ → List Char → ℕ × ℕ × List Char
  | acc, cnt, [] => (acc, cnt, [])
  | acc, cnt, c :: rest =>
    if c.isDigit then readDigits (10 * acc + (c.toNat - 48)) (cnt + 1) rest
    else (acc, cnt, c :: rest)

/-- The syntactic part of JS `parseFloat`: sign, integer digits, optional
fraction, optional exponent — longest valid prefix; `none` when no digit is
read (`parseFloat` returns NaN).  Fields: sign, integer-part value,
fraction value and digit count, signed exponent (0 when absent or, as in
`parseFloat("1e")`, not followed by digits). -/
structure FloatParts where
  neg : Bool
  ip : ℕ
  fp : ℕ
  fc : ℕ
  expo : ℤ
deriving DecidableEq, Repr

/-- Parse the captured characters into `FloatParts` (JS `parseFloat`
syntax, restricted to what the capture class can produce, plus the leading
`+` that `parseFloat` itself would accept). -/
def parseFloatParts (s : List Char) : Option FloatParts :=
  let s1 := s.dropWhile isJsSpace
  let signRest : Bool × List Char :=
    match s1 with
    | '-' :: r => (true, r)
    | '+' :: r => (false, r)
    | r => (false, r)
  let (ip, ic, s2) := readDigits 0 0 signRest.2
  let (fp, fc, s3) :=
    match s2 with
    | '.' :: r => readDigits 0 0 r
    | r => ((0 : ℕ), (0 : ℕ), r)
  if ic + fc = 0 then none
  else
    let expo : ℤ :=
      match s3 with
      | e :: r =>
        if e == 'e' || e == 'E' then
          let esignRest : ℤ × List Char :=
            match r with
            | '-' :: rr => (-1, rr)
            | '+' :: rr => (1, rr)
            | rr => (1, rr)
          let (ev, en, _) := readDigits 0 0 esignRest.2
          if en = 0 then 0 else esignRest.1 * (ev : ℤ)
        else 0
      | [] => 0
    some ⟨signRest.1, ip, fp, fc, expo⟩

/-- The numeric value of parsed float parts. -/
def floatValue (p : FloatParts) : ℚ :=
  (if p.neg then -1 else 1) * ((p.ip : ℚ) + (p.fp : ℚ) / (10 : ℚ) ^ p.fc) *
    (10 : ℚ) ^ p.expo

/-- JS `parseFloat` on a captured group: `none` is NaN. -/
def jsParseFloat (s : List Char) : JsNum :=
  (parseFloatParts s).map floatValue

/-- `extractFloat` (lines 761–765): first match of
`-\s*<name>:\s*([\d.\-e]+)` (case-insensitive) in the text, with the
capture run through `parseFloat`; `none` = no match (`undefined`). -/
def extractFloat (name text : List Char) : Option JsNum :=
  (vatFindCapture name text).map jsParseFloat

/-- JS `Math.round`: `⌊x + 1/2⌋` (half-way cases round up). -/
def jsRound (q : ℚ) : ℚ := ((⌊q + 1/2⌋ : ℤ) : ℚ)

def fieldBoundMinX : List Char := "_boundMinX".toList

def fieldBoundMinY : List Char := "_boundMinY".toList

def fieldBoundMinZ : List Char := "_boundMinZ".toList

def fieldBoundMaxX : List Char := "_boundMaxX".toList

def fieldBoundMaxY : List Char := "_boundMaxY".toList

def fieldBoundMaxZ : List Char := "_boundMaxZ".toList

def fieldFrameCount : List Char := "_frameCount".toList

def fieldHoudiniFPS : List Char := "_houdiniFPS".toList

/-- The eight vendor-format fields searched by `parseUnityMaterial`. -/
def vendorFieldNames : List (List Char) :=
  [fieldBoundMinX, fieldBoundMinY, fieldBoundMinZ,
   fieldBoundMaxX, fieldBoundMaxY, fieldBoundMaxZ,
   fieldFrameCount, fieldHoudiniFPS]

/-- The result record of `parseUnityMaterial` (`Partial<VatMetadata>`):
every field optional; present values are JS numbers (possibly NaN). -/
structure ParsedMeta where
  numFrames : Option JsNum
  fps : Option JsNum
  posMin : Option (JsNum × JsNum × JsNum)
  posMax : Option (JsNum × JsNum × JsNum)
deriving DecidableEq

/-- `parseUnityMaterial` (lines 757–791): extract the eight fields; populate
`posMin` (resp. `posMax`) only when all three of its components were
extracted; `numFrames = Math.round(frameCount)` when the frame count was
extracted; `fps` passes through. -/
def parseUnityMaterial (text : List Char) : ParsedMeta :=
  let boundMinX := extractFloat fieldBoundMinX text
  let boundMinY := extractFloat fieldBoundMinY text
  let boundMinZ := extractFloat fieldBoundMinZ text
  let boundMaxX := extractFloat fieldBoundMaxX text
  let boundMaxY := extractFloat fieldBoundMaxY text
  let boundMaxZ := extractFloat fieldBoundMaxZ text
  let frameCount := extractFloat fieldFrameCount text
  let fpsVal := extractFloat fieldHoudiniFPS text
  { numFrames := frameCount.map (fun v => v.map jsRound)
    fps := fpsVal
    posMin :=
      match boundMinX, boundMinY, boundMinZ with
      | some a, some b, some c => some (a, b, c)
      | _, _, _ => none
    posMax :=
      match boundMaxX, boundMaxY, boundMaxZ with
      | some a, some b, some c => some (a, b, c)
      | _, _, _ => none }

-- ─────────────────────────────────────────────────────────────────────────
-- Theorem: C6
-- ─────────────────────────────────────────────────────────────────────────

/-- C6: `parseUnityMaterial` populates `posMin` exactly when all three of
`_boundMinX/Y/Z` are extracted, and `posMax` exactly when all three of
`_boundMaxX/Y/Z` are — in particular a text with no `_boundMaxZ` match
yields no `posMax` at all, never a partial triple; and `numFrames`, when
present, is the extracted `_frameCount` value rounded to the nearest
integer (`Math.round`). -/
theorem parseUnityMaterial_triples (text : List Char) :
    (extractFloat fieldBoundMaxZ text = none →
      (parseUnityMaterial text).posMax = none) ∧
    ((parseUnityMaterial text).posMin.isSome = true ↔
      ((extractFloat fieldBoundMinX text).isSome = true ∧
       (extractFloat fieldBoundMinY text).isSome = true ∧
       (extractFloat fieldBoundMinZ text).isSome = true)) ∧
    ((parseUnityMaterial text).posMax.isSome = true ↔
      ((extractFloat fieldBoundMaxX text).isSome = true ∧
       (extractFloat fieldBoundMaxY text).isSome = true ∧
       (extractFloat fieldBoundMaxZ text).isSome = true)) ∧
    (∀ v : JsNum, extractFloat fieldFrameCount text = some v →
      (parseUnityMaterial text).numFrames = some (v.map jsRound)) ∧
    (extractFloat fieldFrameCount text = none →
      (parseUnityMaterial text).numFrames = none) := by
  refine ⟨?_, ?_, ?_, ?_, ?_⟩
  · intro h
    cases hx : extractFloat fieldBoundMaxX text <;>
      cases hy : extractFloat fieldBoundMaxY text <;>
        simp [parseUnityMaterial, hx, hy, h]
  · cases hx : extractFloat fieldBoundMinX text <;>
      cases hy : extractFloat fieldBoundMinY text <;>
        cases hz : extractFloat fieldBoundMinZ text <;>
          simp [parseUnityMaterial, hx, hy, hz]
  · cases hx : extractFloat fieldBoundMaxX text <;>
      cases hy : extractFloat fieldBoundMaxY text <;>
        cases hz : extractFloat fieldBoundMaxZ text <;>
          simp [parseUnityMaterial, hx, hy, hz]
  · intro v h
    simp [parseUnityMaterial, h]
  · intro h
    simp [parseUnityMaterial, h]

/-- A vendor material dump carrying both min bounds, `_boundMaxX`/`Y` but no
`_boundMaxZ`, a fractional `_frameCount`, and a frame rate. -/
def sampleNoMaxZ : List Char :=
  ("%YAML 1.1\n- _boundMinX: -0.5\n- _boundMinY: 0\n- _boundMinZ: -0.25\n" ++
   "- _boundMaxX: 0.5\n- _boundMaxY: 2\n- _frameCount: 47.6\n" ++
   "- _houdiniFPS: 24\n").toList

set_option maxRecDepth 4096 in
/-- Witness for `parseUnityMaterial_triples` on `sampleNoMaxZ`: `posMax` is
entirely absent (no partial triple), `posMin` is populated, and `numFrames`
is the rounded `_frameCount` (`47.6` → `48`). -/
theorem parseUnityMaterial_triples_witness :
    extractFloat fieldBoundMaxZ sampleNoMaxZ = none ∧
    (parseUnityMaterial sampleNoMaxZ).posMax = none ∧
    (parseUnityMaterial sampleNoMaxZ).posMin.isSome = true ∧
    (parseUnityMaterial sampleNoMaxZ).numFrames =
      some ((jsParseFloat ("47.6".toList)).map jsRound) ∧
    (jsParseFloat ("47.6".toList)).map jsRound = some 48 := by
  have hz : extractFloat fieldBoundMaxZ sampleNoMaxZ = none := by decide
  have hcap : vatFindCapture fieldFrameCount sampleNoMaxZ =
      some ("47.6".toList) := by decide
  have hfc : extractFloat fieldFrameCount sampleNoMaxZ =
      some (jsParseFloat ("47.6".toList)) := by
    unfold extractFloat
    rw [hcap]
    rfl
  have h := parseUnityMaterial_triples sampleNoMaxZ
  refine ⟨hz, h.1 hz, ?_, h.2.2.2.1 _ hfc, ?_⟩
  · exact (h.2.1).mpr ⟨by decide, by decide, by decide⟩
  · have hparts : parseFloatParts ("47.6".toList) =
        some ⟨false, 47, 6, 1, 0⟩ := by decide
    unfold jsParseFloat
    rw [hparts]
    simp only [Option.map_some']
    unfold floatValue jsRound
    norm_num

-- ─────────────────────────────────────────────────────────────────────────
-- C9: characterization of extractFloat's regex search
-- ─────────────────────────────────────────────────────────────────────────

/-- The declarative reading of the search pattern
`-\s*<name>:\s*([\d.\-e]+)` (case-insensitive): somewhere in the text there
is a literal `-`, whitespace, a case-insensitive copy of the field name, a
literal `:`, whitespace, and a nonempty run of number-class characters. -/
def hasFieldLine (name text : List Char) : Prop :=
  ∃ pre ws1 nm ws2 cap post : List Char,
    text = pre ++ '-' :: (ws1 ++ (nm ++ ':' :: (ws2 ++ (cap ++ post)))) ∧
    (∀ c ∈ ws1, isJsSpace c = true) ∧
    ciMatches nm name = true ∧
    (∀ c ∈ ws2, isJsSpace c = true) ∧
    cap ≠ [] ∧
    (∀ c ∈ cap, isNumChar c = true)

lemma dropWhile_append_of_all {p : Char → Bool} {ws l : List Char}
    (h : ∀ c ∈ ws, p c = true) :
    (ws ++ l).dropWhile p = l.dropWhile p := by
  induction ws with
  | nil => rfl
  | cons a t ih =>
    have ha : p a = true := h a (List.mem_cons_self a t)
    simp only [List.cons_append, List.dropWhile_cons_of_pos ha]
    exact ih (fun c hc => h c (List.mem_cons_of_mem a hc))

lemma ciMatches_length {nm pat : List Char} (h : ciMatches nm pat = true) :
    nm.length = pat.length := by
  induction nm generalizing pat with
  | nil =>
    cases pat with
    | nil => rfl
    | cons b bs => simp [ciMatches] at h
  | cons a xs ih =>
    cases pat with
    | nil => simp [ciMatches] at h
    | cons b bs =>
      simp only [ciMatches, Bool.and_eq_true] at h
      simp [ih h.2]

lemma ciPrefix_of_matches {nm pat r : List Char} (h : ciMatches nm pat = true) :
    ciPrefix pat (nm ++ r) = true := by
  induction pat generalizing nm with
  | nil => rfl
  | cons p ps ih =>
    cases nm with
    | nil => simp [ciMatches] at h
    | cons a xs =>
      simp only [ciMatches, Bool.and_eq_true] at h
      simp only [List.cons_append, ciPrefix, Bool.and_eq_true]
      exact ⟨h.1, ih h.2⟩

lemma ciPrefix_take {pat s : List Char} (h : ciPrefix pat s = true) :
    ciMatches (s.take pat.length) pat = true := by
  induction pat generalizing s with
  | nil => rfl
  | cons p ps ih =>
    cases s with
    | nil => simp [ciPrefix] at h
    | cons c cs =>
      simp only [ciPrefix, Bool.and_eq_true] at h
      simp only [List.length_cons, List.take_succ_cons, ciMatches,
        Bool.and_eq_true]
      exact ⟨h.1, ih h.2⟩

lemma isJsSpace_cases {c : Char} (h : isJsSpace c = true) :
    c = ' ' ∨ c = '\t' ∨ c = '\n' ∨ c = '\r' ∨ c = '\x0B' ∨ c = '\x0C' := by
  simp only [isJsSpace, Bool.or_eq_true, beq_iff_eq] at h
  tauto

lemma space_not_ciChar_underscore {c : Char} (h : isJsSpace c = true) :
    ciChar c '_' = false := by
  rcases isJsSpace_cases h with rfl | rfl | rfl | rfl | rfl | rfl <;> decide

lemma space_not_numChar {c : Char} (h : isJsSpace c = true) :
    isNumChar c = false := by
  rcases isJsSpace_cases h with rfl | rfl | rfl | rfl | rfl | rfl <;> decide

lemma numChar_not_space {c : Char} (h : isNumChar c = true) :
    isJsSpace c = false := by
  cases hs : isJsSpace c
  · rfl
  · rw [space_not_numChar hs] at h
    exact absurd h (by simp)

lemma vatMatchAt_sound {name s cap : List Char}
    (h : vatMatchAt name s = some cap) :
    ∃ ws1 nm ws2 post : List Char,
      s = '-' :: (ws1 ++ (nm ++ ':' :: (ws2 ++ (cap ++ post)))) ∧
      (∀ c ∈ ws1, isJsSpace c = true) ∧
      ciMatches nm name = true ∧
      (∀ c ∈ ws2, isJsSpace c = true) ∧
      cap ≠ [] ∧
      (∀ c ∈ cap, isNumChar c = true) := by
  unfold vatMatchAt at h
  split at h
  next rest =>
    split at h
    next hpre =>
      unfold vatAfterName at h
      split at h
      next r3 hdrop =>
        split at h
        next hemp => exact absurd h (by simp)
        next hemp =>
          injection h with hcap
          subst hcap
          refine ⟨rest.takeWhile isJsSpace,
            (rest.dropWhile isJsSpace).take name.length,
            r3.takeWhile isJsSpace,
            (r3.dropWhile isJsSpace).dropWhile isNumChar,
            ?_, ?_, ?_, ?_, ?_, ?_⟩
          · congr 1
            conv_lhs => rw [← List.takeWhile_append_dropWhile isJsSpace rest]
            congr 1
            conv_lhs =>
              rw [← List.take_append_drop name.length (rest.dropWhile isJsSpace)]
            congr 1
            rw [hdrop]
            congr 1
            conv_lhs => rw [← List.takeWhile_append_dropWhile isJsSpace r3]
            congr 1
            exact (List.takeWhile_append_dropWhile _ _).symm
          · intro c hc; exact List.mem_takeWhile_imp hc
          · exact ciPrefix_take hpre
          · intro c hc; exact List.mem_takeWhile_imp hc
          · intro hnil
            rw [hnil] at hemp
            simp at hemp
          · intro c hc; exact List.mem_takeWhile_imp hc
      next hdrop => exact absurd h (by simp)
    next => exact absurd h (by simp)
  next => exact absurd h (by simp)

lemma dropWhile_space_shape {ws : List Char} {a : Char} {l r : List Char}
    (hws : ∀ c ∈ ws, isJsSpace c = true) (ha : isJsSpace a = false) :
    (ws ++ ((a :: l) ++ r)).dropWhile isJsSpace = (a :: l) ++ r := by
  rw [dropWhile_append_of_all hws, List.cons_append,
    List.dropWhile_cons_of_neg (by simp [ha]), ← List.cons_append]

lemma vatMatchAt_complete {nr ws1 nm ws2 cap post : List Char}
    (hws1 : ∀ c ∈ ws1, isJsSpace c = true)
    (hnm : ciMatches nm ('_' :: nr) = true)
    (hws2 : ∀ c ∈ ws2, isJsSpace c = true)
    (hcap : cap ≠ []) (hnum : ∀ c ∈ cap, isNumChar c = true) :
    (vatMatchAt ('_' :: nr)
      ('-' :: (ws1 ++ (nm ++ ':' :: (ws2 ++ (cap ++ post)))))).isSome = true := by
  obtain ⟨m0, nm', rfl⟩ : ∃ m0 nm', nm = m0 :: nm' := by
    cases nm with
    | nil => simp [ciMatches] at hnm
    | cons a b => exact ⟨a, b, rfl⟩
  obtain ⟨c0, cap', rfl⟩ : ∃ c0 cap', cap = c0 :: cap' := by
    cases cap with
    | nil => exact absurd rfl hcap
    | cons a b => exact ⟨a, b, rfl⟩
  have hm0 : ciChar m0 '_' = true := by
    simp only [ciMatches, Bool.and_eq_true] at hnm
    exact hnm.1
  have hm0s : isJsSpace m0 = false := by
    cases hs : isJsSpace m0
    · rfl
    · rw [space_not_ciChar_underscore hs] at hm0
      exact absurd hm0 (by simp)
  have hc0 : isNumChar c0 = true := hnum c0 (List.mem_cons_self _ _)
  have hc0s : isJsSpace c0 = false := numChar_not_space hc0
  have hlen : (m0 :: nm').length = ('_' :: nr).length := ciMatches_length hnm
  simp only [vatMatchAt]
  rw [dropWhile_space_shape hws1 hm0s, if_pos (ciPrefix_of_matches hnm),
    List.drop_left' hlen]
  simp only [vatAfterName]
  rw [dropWhile_space_shape hws2 hc0s, List.cons_append,
    List.takeWhile_cons_of_pos hc0]
  simp

lemma findCapture_sound {name t cap : List Char}
    (h : vatFindCapture name t = some cap) :
    ∃ pre suf : List Char, t = pre ++ suf ∧ vatMatchAt name suf = some cap := by
  induction t with
  | nil => exact absurd h (by simp [vatFindCapture])
  | cons c rest ih =>
    rw [vatFindCapture] at h
    cases hm : vatMatchAt name (c :: rest) with
    | some cap' =>
      rw [hm] at h
      simp only [Option.some.injEq] at h
      subst h
      exact ⟨[], c :: rest, rfl, hm⟩
    | none =>
      rw [hm] at h
      simp only at h
      obtain ⟨pre, suf, hsplit, hmat⟩ := ih h
      exact ⟨c :: pre, suf, by rw [hsplit, List.cons_append], hmat⟩

lemma findCapture_complete {name suf : List Char}
    (h : (vatMatchAt name suf).isSome = true) (pre : List Char) :
    (vatFindCapture name (pre ++ suf)).isSome = true := by
  induction pre with
  | nil =>
    cases suf with
    | nil => exact absurd h (by simp [vatMatchAt])
    | cons c rest =>
      rw [List.nil_append, vatFindCapture]
      cases hm : vatMatchAt name (c :: rest) with
      | some cap => simp
      | none =>
        rw [hm] at h
        exact absurd h (by simp)
  | cons c pres ih =>
    rw [List.cons_append, vatFindCapture]
    cases hm : vatMatchAt name (c :: (pres ++ suf)) with
    | some cap => simp
    | none => simpa using ih

/-- Characterization of `extractFloat` for a field name starting with `_`
(all eight vendor fields do): a field is extracted (non-`undefined`)
exactly when the text contains the pattern somewhere. -/
lemma extractFloat_isSome_iff (nr text : List Char) :
    (extractFloat ('_' :: nr) text).isSome = true ↔
      hasFieldLine ('_' :: nr) text := by
  unfold extractFloat
  rw [Option.isSome_map']
  constructor
  · intro h
    obtain ⟨cap, hcap⟩ := Option.isSome_iff_exists.mp h
    obtain ⟨pre, suf, rfl, hmat⟩ := findCapture_sound hcap
    obtain ⟨ws1, nm, ws2, post, hs, hws1, hnm, hws2, hne, hnum⟩ :=
      vatMatchAt_sound hmat
    exact ⟨pre, ws1, nm, ws2, cap, post, by rw [hs], hws1, hnm, hws2, hne, hnum⟩
  · rintro ⟨pre, ws1, nm, ws2, cap, post, rfl, hws1, hnm, hws2, hne, hnum⟩
    exact findCapture_complete (vatMatchAt_complete hws1 hnm hws2 hne hnum) pre

/-- Sample text: upper-cased field name, with a sign, decimal point and
exponent in the value. -/
def sampleCaseExp : List Char := "- _HOUDINIFPS: -2.5e1\n".toList

/-- Sample text containing no vendor field at all. -/
def sampleNoField : List Char := "surface no fields here".toList

/-- C9: for each of the eight vendor fields, the extractor succeeds exactly
when the text contains `- <fieldName>: <number>` (case-insensitive name,
`\s*` around the colon, a nonempty run of sign/digit/decimal/exponent
characters as the number) — in particular a field with no such line is
omitted (`none`); and it parses the captured number: the upper-cased
`- _HOUDINIFPS: -2.5e1` yields `-25`, while a text without the field yields
`none`. -/
theorem extractFloat_spec :
    (∀ name ∈ vendorFieldNames, ∀ text : List Char,
      ((extractFloat name text).isSome = true ↔ hasFieldLine name text)) ∧
    extractFloat fieldHoudiniFPS sampleCaseExp = some (some (-25)) ∧
    extractFloat fieldFrameCount sampleNoField = none := by
  refine ⟨?_, ?_, ?_⟩
  · intro name hmem text
    simp only [vendorFieldNames, List.mem_cons, List.not_mem_nil, or_false]
      at hmem
    rcases hmem with rfl | rfl | rfl | rfl | rfl | rfl | rfl | rfl
    · have h : fieldBoundMinX = '_' :: ("boundMinX".toList) := by decide
      rw [h]; exact extractFloat_isSome_iff _ text
    · have h : fieldBoundMinY = '_' :: ("boundMinY".toList) := by decide
      rw [h]; exact extractFloat_isSome_iff _ text
    · have h : fieldBoundMinZ = '_' :: ("boundMinZ".toList) := by decide
      rw [h]; exact extractFloat_isSome_iff _ text
    · have h : fieldBoundMaxX = '_' :: ("boundMaxX".toList) := by decide
      rw [h]; exact extractFloat_isSome_iff _ text
    · have h : fieldBoundMaxY = '_' :: ("boundMaxY".toList) := by decide
      rw [h]; exact extractFloat_isSome_iff _ text
    · have h : fieldBoundMaxZ = '_' :: ("boundMaxZ".toList) := by decide
      rw [h]; exact extractFloat_isSome_iff _ text
    · have h : fieldFrameCount = '_' :: ("frameCount".toList) := by decide
      rw [h]; exact extractFloat_isSome_iff _ text
    · have h : fieldHoudiniFPS = '_' :: ("houdiniFPS".toList) := by decide
      rw [h]; exact extractFloat_isSome_iff _ text
  · have hcap : vatFindCapture fieldHoudiniFPS sampleCaseExp =
        some ("-2.5e1".toList) := by decide
    have hparts : parseFloatParts ("-2.5e1".toList) =
        some ⟨true, 2, 5, 1, 1⟩ := by decide
    unfold extractFloat
    rw [hcap]
    simp only [Option.map_some', Option.some.injEq]
    unfold jsParseFloat
    rw [hparts]
    simp only [Option.map_some', Option.some.injEq]
    unfold floatValue
    norm_num
  · decide

/-- Witness for `extractFloat_spec` at the field `_frameCount` and the
`sampleNoMaxZ` text: the field is in the vendor list, the extraction
succeeds, and the theorem turns that into a concrete pattern occurrence. -/
theorem extractFloat_spec_witness :
    fieldFrameCount ∈ vendorFieldNames ∧
    hasFieldLine fieldFrameCount sampleNoMaxZ := by
  have hmem : fieldFrameCount ∈ vendorFieldNames := by
    simp [vendorFieldNames]
  exact ⟨hmem,
    (extractFloat_spec.1 fieldFrameCount hmem sampleNoMaxZ).mp (by decide)⟩
